import Mathlib

/-!
Verification development for the Azure Functions Node.js library HTTP layer
(`types/http.d.ts`, `src/constants.ts`).  The repository ships the typed
interface surface together with its documentation; the runtime behaviour of
the HTTP message normalization layer (body materializer, content negotiator,
response normalizer, cookie serializer) is described by the specification.
Definitions below are translated from the source declarations where they
exist; behaviour absent from the sources is modelled from the spec, and each
such definition says so in its doc comment.
-/

deriving instance DecidableEq for Except

namespace AzFuncHttp

/-- From `src/constants.ts`: `export const version = '3.5.0-alpha.4'`. -/
def version : String := "3.5.0-alpha.4"

namespace HeaderName

/-- From `src/constants.ts` enum `HeaderName`: `contentType = 'content-type'`. -/
def contentType : String := "content-type"

/-- From `src/constants.ts` enum `HeaderName`: `contentDisposition = 'content-disposition'`. -/
def contentDisposition : String := "content-disposition"

end HeaderName

namespace MediaType

/-- From `src/constants.ts` enum `MediaType`: `multipartForm = 'multipart/form-data'`. -/
def multipartForm : String := "multipart/form-data"

/-- From `src/constants.ts` enum `MediaType`: `multipartPrefix = 'multipart/'`. -/
def multipartPre : String := "multipart/"

/-- From `src/constants.ts` enum `MediaType`: `urlEncodedForm = 'application/x-www-form-urlencoded'`. -/
def urlEncodedForm : String := "application/x-www-form-urlencoded"

/-- From `src/constants.ts` enum `MediaType`: `octetStream = 'application/octet-stream'`. -/
def octetStream : String := "application/octet-stream"

/-- From `src/constants.ts` enum `MediaType`: `json = 'application/json'`. -/
def json : String := "application/json"

end MediaType

/-- From `types/http.d.ts`: the closed `HttpMethod` union
`'GET' | 'POST' | 'DELETE' | 'HEAD' | 'PATCH' | 'PUT' | 'OPTIONS' | 'TRACE' | 'CONNECT'`. -/
inductive HttpMethod where
  | GET | POST | DELETE | HEAD | PATCH | PUT | OPTIONS | TRACE | CONNECT
deriving DecidableEq, Repr

/-! ## Case-insensitive header container

Modelled from the spec §4.1: a mapping from header name to value, lookups and
removals case-insensitive, `set` overwrites any existing value for the logical
name.  Keys are stored lowercased so serialization is deterministic. -/

/-- Whitespace characters recognized when trimming header and media type text. -/
def isWsChar (c : Char) : Bool :=
  c == ' ' || c == '\t' || c == '\n' || c == '\r'

/-- Lowercase a string character by character. -/
def lowerStr (s : String) : String :=
  String.mk (s.data.map Char.toLower)

/-- Trim leading and trailing whitespace. -/
def trimStr (s : String) : String :=
  String.mk (((s.data.dropWhile isWsChar).reverse.dropWhile isWsChar).reverse)

/-- Consume an expected literal character sequence from the front of a
character list.  Returns the remainder on a match. -/
def stripChars : List Char → List Char → Option (List Char)
  | [], cs => some cs
  | _, [] => none
  | e :: es, c :: cs => if c == e then stripChars es cs else none

/-- Whether `s` starts with `pre`. -/
def strStartsWith (s pre : String) : Bool :=
  (stripChars pre.data s.data).isSome

/-- Split a character list on a nonempty separator sequence, fuel-indexed so
reduction is structural. -/
def splitOnCharsAux : Nat → List Char → List Char → List Char → List (List Char)
  | 0, _, cs, acc => [acc.reverse ++ cs]
  | _ + 1, _, [], acc => [acc.reverse]
  | fuel + 1, sep, c :: cs, acc =>
    match stripChars sep (c :: cs) with
    | some rest => acc.reverse :: splitOnCharsAux fuel sep rest []
    | none => splitOnCharsAux fuel sep cs (c :: acc)

/-- Split a string on a separator substring. -/
def splitOnStr (s sep : String) : List String :=
  (splitOnCharsAux (s.length + 1) sep.data s.data []).map String.mk

/-- A header map: association list of (lowercased name, value) pairs.
Mirrors `HttpResponseHeaders` (`[name: string]: string`) from `types/http.d.ts`. -/
def HttpResponseHeaders : Type := List (String × String)

/-- Modelled from the spec: case-insensitive header lookup (`get(name)` of §4.1). -/
def getHeaderIn (h : HttpResponseHeaders) (name : String) : Option String :=
  (List.find? (fun p => lowerStr p.1 == lowerStr name) h).map (fun p => p.2)

/-- Modelled from the spec: case-insensitive overwrite (`set(name, value)` of §4.1);
removes any existing binding of the logical name and appends the new one. -/
def setHeaderIn (h : HttpResponseHeaders) (name val : String) : HttpResponseHeaders :=
  List.filter (fun p => !(lowerStr p.1 == lowerStr name)) h ++ [(lowerStr name, val)]

/-- Modelled from the spec: case-insensitive removal (`remove(name)` of §4.1),
idempotent by construction. -/
def removeHeaderIn (h : HttpResponseHeaders) (name : String) : HttpResponseHeaders :=
  List.filter (fun p => !(lowerStr p.1 == lowerStr name)) h

/-! ## Status codes

`types/http.d.ts` declares `statusCode?: number | string` and
`status: (statusCode: number | string) => HttpResponseFull`: both authoring
shapes accept a number or a string.  The canonical `OutboundResponse` of spec
§3 carries an integer status, so normalization resolves either form. -/

/-- A status code as authored: `number | string` from `types/http.d.ts`. -/
inductive StatusVal where
  | num (n : Nat)
  | str (s : String)
deriving DecidableEq, Repr

/-- Decimal accumulator over characters: fails on the first non-digit. -/
def parseDecAux (acc : Nat) : List Char → Option Nat
  | [] => some acc
  | c :: cs => if c.isDigit then parseDecAux (acc * 10 + (c.toNat - 48)) cs else none

/-- Modelled from the spec: parse a decimal status string to an integer. -/
def parseDecimal (s : String) : Option Nat :=
  if s.data.isEmpty then none else parseDecAux 0 s.data

/-- The decimal string form of a natural number, most significant digit first. -/
def decimalString (n : Nat) : String :=
  if n = 0 then "0" else String.mk (((Nat.digits 10 n).map Nat.digitChar).reverse)

/-- Modelled from the spec §4.4: resolve an authored status value to the
canonical integer status; an unparseable string falls back to the default 200. -/
def statusValToNat : StatusVal → Nat
  | .num n => n
  | .str s => (parseDecimal s).getD 200

/-! ## JavaScript-like body values and JSON serialization

Modelled from the spec §4.3: outbound bodies are byte-like values, strings, or
other structured values; structured values are serialized as JSON.  Numbers are
modelled as integers (the float subset no claim depends on). -/

mutual

/-- A JavaScript-like value: the shape domain the content negotiator inspects.
`bytes` stands for the byte-like values (buffer/stream) of spec §4.3. -/
inductive JsValue where
  | null
  | bool (b : Bool)
  | num (n : Int)
  | str (s : String)
  | bytes (data : List Nat)
  | arr (elems : JsArr)
  | obj (fields : JsObj)
deriving DecidableEq

/-- Elements of a JavaScript array value. -/
inductive JsArr where
  | nil
  | cons (head : JsValue) (tail : JsArr)
deriving DecidableEq

/-- Fields of a JavaScript object value: ordered (key, value) pairs. -/
inductive JsObj where
  | nil
  | cons (key : String) (val : JsValue) (tail : JsObj)
deriving DecidableEq

end

/-- Escape a character for a JSON string literal. -/
def escapeJsonChar (c : Char) : String :=
  if c == '"' then "\\\""
  else if c == '\\' then "\\\\"
  else if c == '\n' then "\\n"
  else if c == '\t' then "\\t"
  else if c == '\r' then "\\r"
  else String.singleton c

/-- Escape a string for inclusion in a JSON string literal. -/
def escapeJson (s : String) : String :=
  List.foldl (fun acc c => acc ++ escapeJsonChar c) "" s.data

mutual

/-- Modelled from the spec §4.3: JSON serialization of a structured value
(the `serialize as JSON` arm of the outbound decision table). -/
def jsonSerialize : JsValue → String
  | .null => "null"
  | .bool true => "true"
  | .bool false => "false"
  | .num n => toString n
  | .str s => "\"" ++ escapeJson s ++ "\""
  | .bytes data => "[" ++ String.intercalate "," (data.map toString) ++ "]"
  | .arr elems => "[" ++ jsonSerializeArr elems ++ "]"
  | .obj fields => "\x7b" ++ jsonSerializeObj fields ++ "\x7d"

/-- Comma-joined serialization of array elements. -/
def jsonSerializeArr : JsArr → String
  | .nil => ""
  | .cons v .nil => jsonSerialize v
  | .cons v rest => jsonSerialize v ++ "," ++ jsonSerializeArr rest

/-- Comma-joined serialization of object fields. -/
def jsonSerializeObj : JsObj → String
  | .nil => ""
  | .cons k v .nil => "\"" ++ escapeJson k ++ "\":" ++ jsonSerialize v
  | .cons k v rest => "\"" ++ escapeJson k ++ "\":" ++ jsonSerialize v ++ "," ++ jsonSerializeObj rest

end

/-! ## Content negotiator -/

/-- Modelled from the spec §4.3: whether a string already looks like
pre-serialized JSON (object or array text). -/
def looksLikeJson (s : String) : Bool :=
  let t := trimStr s
  strStartsWith t "\x7b" || strStartsWith t "["

/-- Whether a value is structured in the sense of spec §4.3: neither byte-like
nor a string. -/
def isStructured : JsValue → Bool
  | .bytes _ => false
  | .str _ => false
  | _ => true

/-- Modelled from the spec §4.3: default the content-type header to `ct` only
when the caller has not set one; an explicitly set content-type is never
overwritten. -/
def defaultContentType (h : HttpResponseHeaders) (ct : String) : HttpResponseHeaders :=
  if (getHeaderIn h HeaderName.contentType).isSome then h
  else setHeaderIn h HeaderName.contentType ct

/-- Modelled from the spec §4.3: the outbound content negotiator.  When
negotiation is disabled the value passes through raw with no content-type
inference.  When enabled: byte-like values pass through unchanged; strings that
look like JSON are treated as pre-serialized JSON (content-type defaulted to
`application/json` if unset); plain strings are treated as plain text; every
other structured value is serialized as JSON with content-type defaulted to
`application/json` if unset. -/
def negotiate (enable : Bool) (h : HttpResponseHeaders) (body : Option JsValue) :
    Option JsValue × HttpResponseHeaders :=
  if !enable then (body, h)
  else
    match body with
    | none => (none, h)
    | some v =>
      match v with
      | .bytes data => (some (.bytes data), h)
      | .str s =>
        if looksLikeJson s then (some (.str s), defaultContentType h MediaType.json)
        else (some (.str s), h)
      | v => (some (.str (jsonSerialize v)), defaultContentType h MediaType.json)

/-! ## Cookies -/

/-- From `types/http.d.ts`: the closed same-site policy set `'Strict' | 'Lax' | 'None'`. -/
inductive SameSite where
  | Strict | Lax | None
deriving DecidableEq, Repr

/-- Wire text of a same-site policy. -/
def SameSite.render : SameSite → String
  | .Strict => "Strict"
  | .Lax => "Lax"
  | .None => "None"

/-- From `types/http.d.ts` interface `Cookie`: required `name` and `value`,
optional `domain`, `path`, `expires` (a date or Unix time in milliseconds,
modelled as an integer), `secure`, `httpOnly`, `sameSite`, `maxAge` (seconds).
`expires` and `maxAge` are independently optional fields in the source. -/
structure Cookie where
  name : String
  value : String
  domain : Option String := none
  path : Option String := none
  expires : Option Int := none
  secure : Option Bool := none
  httpOnly : Option Bool := none
  sameSite : Option SameSite := none
  maxAge : Option Int := none
deriving DecidableEq, Repr

/-- A cookie as a dynamic caller may author it, before validation: `name` and
`value` may be missing.  Serialization validates them (spec §7). -/
structure RawCookie where
  name : Option String := none
  value : Option String := none
  domain : Option String := none
  path : Option String := none
  expires : Option Int := none
  secure : Option Bool := none
  httpOnly : Option Bool := none
  sameSite : Option SameSite := none
  maxAge : Option Int := none
deriving DecidableEq, Repr

/-- View a well-typed `Cookie` as a raw cookie with every required field present. -/
def Cookie.toRaw (c : Cookie) : RawCookie :=
  { name := some c.name, value := some c.value, domain := c.domain, path := c.path,
    expires := c.expires, secure := c.secure, httpOnly := c.httpOnly,
    sameSite := c.sameSite, maxAge := c.maxAge }

/-- The error taxonomy of spec §7. -/
inductive HttpError where
  | bodyAlreadyConsumed
  | malformedBody (raw : String) (pos : Nat)
  | unsupportedBodyType (contentType : String)
  | invalidCookie
deriving DecidableEq, Repr

/-- Render an optional cookie attribute as `; Key=value` when present. -/
def cookieAttr (key : String) : Option String → String
  | none => ""
  | some v => "; " ++ key ++ "=" ++ v

/-- Render an optional cookie flag as `; Key` when set. -/
def cookieFlag (key : String) : Option Bool → String
  | some true => "; " ++ key
  | _ => ""

/-- Modelled from the spec §4.1 and §7: serialize one cookie to its
`Set-Cookie` line with attribute order name=value, Domain, Path, Expires,
Max-Age, Secure, HttpOnly, SameSite, each present only if set.  A cookie
missing its required name or value fails with `InvalidCookieError` before any
output is produced. -/
def serializeCookie (c : RawCookie) : Except HttpError String :=
  match c.name, c.value with
  | some n, some v =>
    .ok (n ++ "=" ++ v
      ++ cookieAttr "Domain" c.domain
      ++ cookieAttr "Path" c.path
      ++ cookieAttr "Expires" (c.expires.map toString)
      ++ cookieAttr "Max-Age" (c.maxAge.map toString)
      ++ cookieFlag "Secure" c.secure
      ++ cookieFlag "HttpOnly" c.httpOnly
      ++ cookieAttr "SameSite" (c.sameSite.map SameSite.render))
  | _, _ => .error .invalidCookie

/-- Modelled from the spec §7: serialize a response's cookie list; any invalid
cookie fails the whole serialization before any line is emitted. -/
def serializeCookies (cs : List RawCookie) : Except HttpError (List String) :=
  cs.mapM serializeCookie

/-! ## Response authoring shapes and the canonical outbound response -/

/-- From `types/http.d.ts` interface `HttpResponseSimple`: optional `headers`,
`cookies`, `body`, `statusCode`, `status` (both `number | string`), and
`enableContentNegotiation`.  Per the source doc comments, `statusCode` takes
precedence over `status`, and both default to 200 when absent. -/
structure HttpResponseSimple where
  headers : Option HttpResponseHeaders := none
  cookies : Option (List Cookie) := none
  body : Option JsValue := none
  statusCode : Option StatusVal := none
  status : Option StatusVal := none
  enableContentNegotiation : Option Bool := none

/-- From `types/http.d.ts` interface `HttpResponseFull`: the fluent shape's
data fields (its mutators are defined below). -/
structure HttpResponseFull where
  headers : Option HttpResponseHeaders := none
  cookies : Option (List Cookie) := none
  body : Option JsValue := none
  statusCode : Option StatusVal := none
  enableContentNegotiation : Option Bool := none

/-- Modelled from the spec §4.4 on the source declaration
`status: (statusCode: number | string) => HttpResponseFull`: set the status
code, returning the updated builder so calls chain. -/
def HttpResponseFull.status (r : HttpResponseFull) (code : StatusVal) : HttpResponseFull :=
  { r with statusCode := some code }

/-- Modelled from the spec §4.4 on the source declaration `setHeader(field, val)`:
set a header field case-insensitively, returning the updated builder. -/
def HttpResponseFull.setHeader (r : HttpResponseFull) (field val : String) : HttpResponseFull :=
  { r with headers := some (setHeaderIn (r.headers.getD []) field val) }

/-- From `types/http.d.ts`: `header` has the same functionality as `setHeader`. -/
def HttpResponseFull.header (r : HttpResponseFull) (field val : String) : HttpResponseFull :=
  r.setHeader field val

/-- From `types/http.d.ts`: `set` has the same functionality as `setHeader`. -/
def HttpResponseFull.set (r : HttpResponseFull) (field val : String) : HttpResponseFull :=
  r.setHeader field val

/-- Modelled from the spec §4.4 on the source declaration `getHeader(field)`:
read a header field case-insensitively. -/
def HttpResponseFull.getHeader (r : HttpResponseFull) (field : String) : Option String :=
  getHeaderIn (r.headers.getD []) field

/-- From `types/http.d.ts`: `get` has the same functionality as `getHeader`. -/
def HttpResponseFull.get (r : HttpResponseFull) (field : String) : Option String :=
  r.getHeader field

/-- Modelled from the spec §4.4 on the source declaration `removeHeader(field)`:
remove a header field, returning the updated builder; removing an absent
header is not an error. -/
def HttpResponseFull.removeHeader (r : HttpResponseFull) (field : String) : HttpResponseFull :=
  { r with headers := r.headers.map (fun h => removeHeaderIn h field) }

/-- From `types/http.d.ts`: `type(type)` sets the `'Content-Type'` header to
the given value, returning the updated builder. -/
def HttpResponseFull.type (r : HttpResponseFull) (t : String) : HttpResponseFull :=
  r.setHeader HeaderName.contentType t

/-- The canonical `OutboundResponse` of spec §3: integer status, resolved
header map, ordered cookie list, resolved body (or nothing), and the
negotiation flag. -/
structure OutboundResponse where
  status : Nat
  headers : HttpResponseHeaders
  cookies : List Cookie
  body : Option JsValue
  negotiated : Bool

/-- Modelled from the spec §4.4: the shared normalization core.  Resolves the
status (default 200), runs the content negotiator with the resolved
`enableContentNegotiation` flag (default false, i.e. raw pass-through), and
passes cookies through as an ordered list. -/
def normalizeParts (headers : HttpResponseHeaders) (cookies : List Cookie)
    (body : Option JsValue) (statusCode : Option StatusVal) (enable : Option Bool) :
    OutboundResponse :=
  let e := enable.getD false
  let nego := negotiate e headers body
  { status := (statusCode.map statusValToNat).getD 200
    headers := nego.2
    cookies := cookies
    body := nego.1
    negotiated := e }

/-- Modelled from the spec §4.4: normalize a simple-shape response; a
`statusCode` value, if present, takes precedence over `status`. -/
def normalizeSimple (r : HttpResponseSimple) : OutboundResponse :=
  normalizeParts (r.headers.getD []) (r.cookies.getD []) r.body
    (match r.statusCode with
     | some v => some v
     | none => r.status)
    r.enableContentNegotiation

/-- Modelled from the spec §4.4: normalize a fluent-shape response. -/
def normalizeFull (r : HttpResponseFull) : OutboundResponse :=
  normalizeParts (r.headers.getD []) (r.cookies.getD []) r.body r.statusCode
    r.enableContentNegotiation

/-! ## Request identity and the inbound request -/

/-- From `types/http.d.ts`: `HttpRequestUserType`, `'AppService' | 'StaticWebApps'`. -/
inductive HttpRequestUserType where
  | AppService | StaticWebApps
deriving DecidableEq, Repr

/-- From `types/http.d.ts` interface `HttpRequestUser`: authentication type,
unique user id, username, identity provider, and the open
`claimsPrincipalData` mapping of provider-specific claims. -/
structure HttpRequestUser where
  type : HttpRequestUserType
  id : String
  username : String
  identityProvider : String
  claimsPrincipalData : List (String × JsValue)

/-- From `types/http.d.ts` interface `HttpRequest`: method, url, headers,
query, route params, optional logged-in user (`HttpRequestUser | null`), and
the single-consumption body.  The body stream (`ReadableStream | null`) is
modelled as the optional byte text it would drain to, plus the `bodyUsed`
observable. -/
structure HttpRequest where
  method : HttpMethod
  url : String
  headers : HttpResponseHeaders
  query : List (String × String)
  params : List (String × String)
  user : Option HttpRequestUser
  body : Option String
  bodyUsed : Bool

/-- Modelled from the spec §6: build the normalized request the core hands to
the handler from what the dispatcher/host supplies: raw method, URL, header
set, route parameters, the optional pre-resolved identity attached by the
external authentication collaborator, and the single-read body stream.  The
body starts unconsumed. -/
def mkRequest (method : HttpMethod) (url : String) (headers : HttpResponseHeaders)
    (query params : List (String × String)) (user : Option HttpRequestUser)
    (body : Option String) : HttpRequest :=
  { method := method, url := url, headers := headers, query := query,
    params := params, user := user, body := body, bodyUsed := false }

/-! ## JSON parsing

Modelled from the spec §4.2: `json()` parses `text()`'s result as JSON and
fails with a `MalformedBodyError` carrying the parse position on invalid
JSON.  The parser is fuel-indexed; `parseJson` supplies fuel ample for its
input.  Numbers are parsed as integers (the model's number domain). -/

/-- JSON whitespace. -/
def jsonWs (c : Char) : Bool :=
  c == ' ' || c == '\n' || c == '\t' || c == '\r'

/-- Skip whitespace, tracking the position. -/
def skipJsonWs : List Char → Nat → List Char × Nat
  | [], p => ([], p)
  | c :: cs, p => if jsonWs c then skipJsonWs cs (p + 1) else (c :: cs, p)

/-- Take a maximal run of decimal digits, returning them with the rest and
the advanced position. -/
def takeDigits : List Char → Nat → List Char × List Char × Nat
  | [], p => ([], [], p)
  | c :: cs, p =>
    if c.isDigit then
      let r := takeDigits cs (p + 1)
      (c :: r.1, r.2.1, r.2.2)
    else ([], c :: cs, p)

/-- Numeric value of a digit run, most significant first. -/
def digitsToNat (ds : List Char) : Nat :=
  List.foldl (fun a c => a * 10 + (c.toNat - 48)) 0 ds

/-- The opening brace character. -/
def lbrace : Char := Char.ofNat 123

/-- The closing brace character. -/
def rbrace : Char := Char.ofNat 125

/-- Parse the remainder of a JSON string literal after its opening quote. -/
def parseJsonStr : Nat → List Char → Nat → String → Except Nat (String × List Char × Nat)
  | 0, _, p, _ => .error p
  | _ + 1, [], p, _ => .error p
  | fuel + 1, c :: cs, p, acc =>
    if c == '"' then .ok (acc, cs, p + 1)
    else if c == '\\' then
      match cs with
      | [] => .error (p + 1)
      | e :: cs' =>
        let d := if e == 'n' then '\n' else if e == 't' then '\t'
                 else if e == 'r' then '\r' else e
        parseJsonStr fuel cs' (p + 2) (acc.push d)
    else parseJsonStr fuel cs (p + 1) (acc.push c)

/-- Parse a JSON number (an optional minus sign and a nonempty digit run). -/
def parseJsonNum (cs : List Char) (p : Nat) : Except Nat (JsValue × List Char × Nat) :=
  match cs with
  | '-' :: cs' =>
    match takeDigits cs' (p + 1) with
    | ([], _, _) => .error (p + 1)
    | (ds, rest, p') => .ok (.num (-(digitsToNat ds : Int)), rest, p')
  | _ =>
    match takeDigits cs p with
    | ([], _, _) => .error p
    | (ds, rest, p') => .ok (.num (digitsToNat ds), rest, p')

mutual

/-- Parse one JSON value. -/
def parseJsonVal : Nat → List Char → Nat → Except Nat (JsValue × List Char × Nat)
  | 0, _, p => .error p
  | fuel + 1, cs, p =>
    let w := skipJsonWs cs p
    match w.1 with
    | [] => .error w.2
    | c :: rest =>
      if c == '"' then
        match parseJsonStr fuel rest (w.2 + 1) "" with
        | .error e => .error e
        | .ok (s, r, p') => .ok (.str s, r, p')
      else if c == '[' then parseJsonArrBody fuel rest (w.2 + 1)
      else if c == lbrace then parseJsonObjBody fuel rest (w.2 + 1)
      else
        match stripChars ['t', 'r', 'u', 'e'] (c :: rest) with
        | some r => .ok (.bool true, r, w.2 + 4)
        | none =>
        match stripChars ['f', 'a', 'l', 's', 'e'] (c :: rest) with
        | some r => .ok (.bool false, r, w.2 + 5)
        | none =>
        match stripChars ['n', 'u', 'l', 'l'] (c :: rest) with
        | some r => .ok (.null, r, w.2 + 4)
        | none => parseJsonNum (c :: rest) w.2
termination_by structural fuel _ _ => fuel

/-- Parse the elements of a JSON array after its opening bracket. -/
def parseJsonArrBody : Nat → List Char → Nat → Except Nat (JsValue × List Char × Nat)
  | 0, _, p => .error p
  | fuel + 1, cs, p =>
    let w := skipJsonWs cs p
    match w.1 with
    | ']' :: r => .ok (.arr .nil, r, w.2 + 1)
    | _ =>
      match parseJsonArrItems fuel w.1 w.2 with
      | .error e => .error e
      | .ok (elems, r, p') => .ok (.arr elems, r, p')
termination_by structural fuel _ _ => fuel

/-- Parse one or more comma-separated array elements and the closing bracket. -/
def parseJsonArrItems : Nat → List Char → Nat → Except Nat (JsArr × List Char × Nat)
  | 0, _, p => .error p
  | fuel + 1, cs, p =>
    match parseJsonVal fuel cs p with
    | .error e => .error e
    | .ok (v, rest, p') =>
      let w := skipJsonWs rest p'
      match w.1 with
      | ',' :: r =>
        match parseJsonArrItems fuel r (w.2 + 1) with
        | .error e => .error e
        | .ok (tail, r', p'') => .ok (.cons v tail, r', p'')
      | ']' :: r => .ok (.cons v .nil, r, w.2 + 1)
      | _ => .error w.2
termination_by structural fuel _ _ => fuel

/-- Parse the members of a JSON object after its opening brace. -/
def parseJsonObjBody : Nat → List Char → Nat → Except Nat (JsValue × List Char × Nat)
  | 0, _, p => .error p
  | fuel + 1, cs, p =>
    let w := skipJsonWs cs p
    match w.1 with
    | c :: r =>
      if c == rbrace then .ok (.obj .nil, r, w.2 + 1)
      else
        match parseJsonObjItems fuel w.1 w.2 with
        | .error e => .error e
        | .ok (fields, r', p') => .ok (.obj fields, r', p')
    | [] => .error w.2
termination_by structural fuel _ _ => fuel

/-- Parse one or more comma-separated object members and the closing brace. -/
def parseJsonObjItems : Nat → List Char → Nat → Except Nat (JsObj × List Char × Nat)
  | 0, _, p => .error p
  | fuel + 1, cs, p =>
    let w := skipJsonWs cs p
    match w.1 with
    | '"' :: r =>
      match parseJsonStr fuel r (w.2 + 1) "" with
      | .error e => .error e
      | .ok (k, rest, p') =>
        let w2 := skipJsonWs rest p'
        match w2.1 with
        | ':' :: r2 =>
          match parseJsonVal fuel r2 (w2.2 + 1) with
          | .error e => .error e
          | .ok (v, rest2, p'') =>
            let w3 := skipJsonWs rest2 p''
            match w3.1 with
            | ',' :: r3 =>
              match parseJsonObjItems fuel r3 (w3.2 + 1) with
              | .error e => .error e
              | .ok (tail, r', q) => .ok (.cons k v tail, r', q)
            | c2 :: r3 =>
              if c2 == rbrace then .ok (.cons k v .nil, r3, w3.2 + 1)
              else .error w3.2
            | [] => .error w3.2
        | _ => .error w2.2
    | _ => .error w.2
termination_by structural fuel _ _ => fuel

end

/-- Modelled from the spec §4.2: parse a whole string as one JSON document;
the error carries the failing position. -/
def parseJson (s : String) : Except Nat JsValue :=
  match parseJsonVal (2 * s.length + 4) s.data 0 with
  | .error p => .error p
  | .ok (v, rest, p) =>
    let w := skipJsonWs rest p
    if w.1.isEmpty then .ok v else .error w.2

/-! ## Form data parsing and the request body materializer -/

/-- The media type portion of a content-type header value: the text before the
first `;`, trimmed and lowercased. -/
def mediaTypeOf (ct : String) : String :=
  lowerStr (trimStr ((splitOnStr ct ";").headD ""))

/-- Modelled from the spec §4.2: whether a declared content type is in the
multipart media type family (`multipart/` prefix from `src/constants.ts`). -/
def isMultipartType (ct : String) : Bool :=
  strStartsWith (mediaTypeOf ct) MediaType.multipartPre

/-- Modelled from the spec §4.2: whether a declared content type is the
URL-encoded form media type from `src/constants.ts`. -/
def isUrlEncodedType (ct : String) : Bool :=
  mediaTypeOf ct == MediaType.urlEncodedForm

/-- Modelled from the spec §4.2: parse a URL-encoded body into name/value
pairs; `a=1&b=2` parses to fields `a = 1`, `b = 2`. -/
def parseUrlEncoded (body : String) : List (String × String) :=
  (splitOnStr body "&").filterMap fun pair =>
    if pair.data.isEmpty then none
    else
      match splitOnStr pair "=" with
      | [] => none
      | [k] => some (k, "")
      | k :: vs => some (k, String.intercalate "=" vs)

/-- The boundary parameter of a multipart content-type header, when declared. -/
def boundaryOf (ct : String) : Option String :=
  (splitOnStr ct ";").findSome? fun part =>
    let t := trimStr part
    if strStartsWith t "boundary=" then some (String.mk (t.data.drop 9)) else none

/-- Extract the `name="..."` parameter of a part's content-disposition header
section. -/
def partName (headerSec : String) : Option String :=
  match splitOnStr headerSec "name=\"" with
  | _ :: p :: _ => some ((splitOnStr p "\"").headD "")
  | _ => none

/-- Parse one multipart chunk into a named field: the text before the first
blank line is the part's header section, the rest is its content. -/
def parsePartChunk (chunk : String) : Option (String × String) :=
  match splitOnStr chunk "\r\n\r\n" with
  | headerSec :: rest :: more =>
    match partName headerSec with
    | some n => some (n, String.intercalate "\r\n\r\n" (rest :: more))
    | none => none
  | _ => none

/-- Modelled from the spec §4.2: parse a multipart body by splitting on its
boundary marker and reading each part's name and content. -/
def parseMultipart (ct : String) (body : String) : List (String × String) :=
  match boundaryOf ct with
  | none => []
  | some b => ((splitOnStr body ("--" ++ b)).filterMap parsePartChunk)

/-- The typed body accessors of `types/http.d.ts` interface `HttpRequest`. -/
inductive Accessor where
  | arrayBuffer | blob | text | json | formData
deriving DecidableEq, Repr

/-- What a body accessor materializes: raw bytes for `arrayBuffer`, a blob
(bytes plus declared content type) for `blob`, a string for `text`, a parsed
JSON value for `json`, named fields for `formData`. -/
inductive AccessorResult where
  | bytes (data : Option String)
  | blob (data : Option String) (contentType : Option String)
  | text (s : String)
  | json (v : JsValue)
  | formData (entries : List (String × String))
deriving DecidableEq

/-- The declared content type of a request. -/
def HttpRequest.contentType (r : HttpRequest) : Option String :=
  getHeaderIn r.headers HeaderName.contentType

/-- Modelled from the spec §4.2: materialize one body accessor's result.  A
request with no body returns an empty/absent result from every accessor
without being treated as erroneous.  `json()` parses the text as JSON and
fails with `MalformedBodyError` on invalid JSON; `formData()` dispatches on
the declared content type — multipart and URL-encoded bodies are parsed, any
other content type fails with `UnsupportedBodyTypeError`. -/
def accessorResult (a : Accessor) (r : HttpRequest) : Except HttpError AccessorResult :=
  match r.body with
  | none =>
    match a with
    | .arrayBuffer => .ok (.bytes none)
    | .blob => .ok (.blob none r.contentType)
    | .text => .ok (.text "")
    | .json => .ok (.json .null)
    | .formData => .ok (.formData [])
  | some data =>
    match a with
    | .arrayBuffer => .ok (.bytes (some data))
    | .blob => .ok (.blob (some data) r.contentType)
    | .text => .ok (.text data)
    | .json =>
      match parseJson data with
      | .ok v => .ok (.json v)
      | .error p => .error (.malformedBody data p)
    | .formData =>
      let ct := (r.contentType).getD ""
      if isMultipartType ct then .ok (.formData (parseMultipart ct data))
      else if isUrlEncodedType ct then .ok (.formData (parseUrlEncoded data))
      else .error (.unsupportedBodyType ct)

/-- Modelled from the spec §4.2: run one body accessor against the request,
returning its result and the request's new state.  The `bodyUsed` flag flips
with the invocation: if any accessor has already been invoked the call fails
with `BodyAlreadyConsumedError` and nothing is read; otherwise the flag is
recorded before the body is materialized by `accessorResult`. -/
def runAccessor (a : Accessor) (r : HttpRequest) :
    Except HttpError AccessorResult × HttpRequest :=
  if r.bodyUsed then (.error .bodyAlreadyConsumed, r)
  else (accessorResult a r, { r with bodyUsed := true })

/-- Whether a request's content is well formed for a given accessor: `json`
needs a parseable body, `formData` needs a recognized form media type; the
other accessors accept any body. -/
def wellFormedFor (a : Accessor) (r : HttpRequest) : Bool :=
  match r.body with
  | none => true
  | some data =>
    match a with
    | .json => (parseJson data).isOk
    | .formData =>
      let ct := (r.contentType).getD ""
      isMultipartType ct || isUrlEncodedType ct
    | _ => true

/-! ## Theorems -/

/-- A successful `Except` result is `isOk`. -/
@[simp] lemma isOk_ok {ε α : Type} (x : α) : (Except.ok x : Except ε α).isOk = true := rfl

/-- A failed `Except` result is not `isOk`. -/
@[simp] lemma isOk_error {ε α : Type} (e : ε) : (Except.error e : Except ε α).isOk = false := rfl

/-- Any accessor invocation leaves the body marked used. -/
lemma runAccessor_bodyUsed (a : Accessor) (r : HttpRequest) (h : r.bodyUsed = true) :
    ((runAccessor a r).2).bodyUsed = true := by
  simp [runAccessor, h]

/-- An accessor invocation on an unconsumed body records the flip. -/
lemma runAccessor_marks (a : Accessor) (r : HttpRequest) :
    ((runAccessor a r).2).bodyUsed = true ∨ ((runAccessor a r).2) = r := by
  by_cases h : r.bodyUsed
  · right; simp [runAccessor, h]
  · left; simp [runAccessor, h]

/-- On an already-consumed body, every accessor fails. -/
lemma runAccessor_consumed (a : Accessor) (r : HttpRequest) (h : r.bodyUsed = true) :
    (runAccessor a r).1 = .error .bodyAlreadyConsumed := by
  simp [runAccessor, h]

/-- On a fresh body, an accessor's result is the materialized one and the flag
flips. -/
lemma runAccessor_fresh (a : Accessor) (r : HttpRequest) (h : r.bodyUsed = false) :
    runAccessor a r = (accessorResult a r, { r with bodyUsed := true }) := by
  simp [runAccessor, h]

/-- A sample fresh request carrying a plain text body. -/
def sampleTextRequest : HttpRequest :=
  mkRequest .POST "http://localhost/api/fn" [] [] [] none (some "hi")

/-- C1: for every request, once any body accessor has been invoked, every
subsequent body accessor call (a second call to the same accessor included)
fails with `BodyAlreadyConsumedError` — an error result, never
empty-but-successful data. -/
theorem c1_second_accessor_always_fails :
    (∀ (a : Accessor) (r : HttpRequest), r.bodyUsed = true →
      (runAccessor a r).1 = .error .bodyAlreadyConsumed) ∧
    (∀ (a₁ a₂ : Accessor) (r : HttpRequest), r.bodyUsed = false →
      (runAccessor a₂ ((runAccessor a₁ r).2)).1 = .error .bodyAlreadyConsumed) := by
  refine ⟨fun a r h => runAccessor_consumed a r h, fun a₁ a₂ r h => ?_⟩
  apply runAccessor_consumed
  simp [runAccessor, h]

/-- Witness for C1 at a concrete request: after a first `text()` call, a
second `json()` call fails with `BodyAlreadyConsumedError`. -/
theorem c1_second_accessor_always_fails_witness :
    sampleTextRequest.bodyUsed = false ∧
    (runAccessor .json ((runAccessor .text sampleTextRequest).2)).1 =
      .error .bodyAlreadyConsumed :=
  ⟨by decide, c1_second_accessor_always_fails.2 .text .json sampleTextRequest (by decide)⟩

/-- C2: `bodyUsed` is false on a freshly normalized request; calling any one
body accessor on a fresh, well-formed request succeeds and `bodyUsed` is true
in the state the accessor returns; and the flag never resets — once true it
stays true across every further operation. -/
theorem c2_bodyUsed_flips_with_first_accessor :
    (∀ m u h q p usr b, (mkRequest m u h q p usr b).bodyUsed = false) ∧
    (∀ (a : Accessor) (r : HttpRequest), r.bodyUsed = false → wellFormedFor a r = true →
      ((runAccessor a r).1.isOk = true ∧ ((runAccessor a r).2).bodyUsed = true)) ∧
    (∀ (a : Accessor) (r : HttpRequest), r.bodyUsed = true →
      ((runAccessor a r).2).bodyUsed = true) := by
  refine ⟨fun _ _ _ _ _ _ _ => rfl, fun a r hfresh hwf => ?_, runAccessor_bodyUsed⟩
  rw [runAccessor_fresh a r hfresh]
  refine ⟨?_, rfl⟩
  unfold wellFormedFor at hwf
  cases hb : r.body with
  | none => cases a <;> simp [accessorResult, hb]
  | some data =>
    rw [hb] at hwf
    cases a
    case arrayBuffer => simp [accessorResult, hb]
    case blob => simp [accessorResult, hb]
    case text => simp [accessorResult, hb]
    case json =>
      have hwf' : (parseJson data).isOk = true := hwf
      simp only [accessorResult, hb]
      cases hp : parseJson data with
      | ok v => simp [hp]
      | error p =>
        rw [hp] at hwf'
        simp at hwf'
    case formData =>
      simp only [Bool.or_eq_true] at hwf
      rcases hwf with hm | hu
      · simp [accessorResult, hb, hm]
      · by_cases hm2 : isMultipartType ((r.contentType).getD "") = true
        · simp [accessorResult, hb, hm2]
        · simp [accessorResult, hb, hm2, hu]

/-- Witness for C2 at a concrete request: a first `text()` call succeeds and
flips `bodyUsed`. -/
theorem c2_bodyUsed_flips_with_first_accessor_witness :
    sampleTextRequest.bodyUsed = false ∧ wellFormedFor .text sampleTextRequest = true ∧
    (runAccessor .text sampleTextRequest).1.isOk = true ∧
    ((runAccessor .text sampleTextRequest).2).bodyUsed = true :=
  ⟨by decide, by decide,
    (c2_bodyUsed_flips_with_first_accessor.2.1 .text sampleTextRequest (by decide) (by decide)).1,
    (c2_bodyUsed_flips_with_first_accessor.2.1 .text sampleTextRequest (by decide) (by decide)).2⟩

/-- C9: the normalized request's identity is exactly the one the external
authentication collaborator attached — absent (`none`, not an empty object)
when none was attached, and when present it carries the authentication scheme
tag, user id, username, provider name, and the open claims mapping. -/
theorem c9_request_identity_passthrough :
    (∀ m u h q p b (usr : Option HttpRequestUser),
      (mkRequest m u h q p usr b).user = usr) ∧
    (∀ m u h q p b, (mkRequest m u h q p none b).user = none) ∧
    (∀ m u h q p b (ident : HttpRequestUser),
      ((mkRequest m u h q p (some ident) b).user).map
          (fun x => (x.type, x.id, x.username, x.identityProvider, x.claimsPrincipalData)) =
        some (ident.type, ident.id, ident.username, ident.identityProvider,
          ident.claimsPrincipalData)) :=
  ⟨fun _ _ _ _ _ _ _ => rfl, fun _ _ _ _ _ _ => rfl, fun _ _ _ _ _ _ _ => rfl⟩

/-- Evaluating `Char.ofNat` below the surrogate range. -/
lemma char_toNat_ofNat_valid (n : Nat) (h : n < 0xd800) : (Char.ofNat n).toNat = n := by
  unfold Char.ofNat
  rw [dif_pos]
  · rfl
  · exact Or.inl (by exact_mod_cast h)

/-- Lowercasing a character twice is the same as lowercasing it once. -/
lemma toLower_idem (c : Char) : c.toLower.toLower = c.toLower := by
  unfold Char.toLower
  by_cases h : c.toNat ≥ 65 ∧ c.toNat ≤ 90
  · simp only [if_pos h]
    have h32 : (Char.ofNat (c.toNat + 32)).toNat = c.toNat + 32 :=
      char_toNat_ofNat_valid _ (by omega)
    rw [h32, if_neg (by omega)]
  · simp only [if_neg h]

/-- Lowercasing a string is idempotent. -/
lemma lowerStr_idem (s : String) : lowerStr (lowerStr s) = lowerStr s := by
  unfold lowerStr
  apply congrArg
  rw [show (String.mk (s.data.map Char.toLower)).data = s.data.map Char.toLower from rfl]
  rw [List.map_map]
  exact List.map_congr_left fun c _ => toLower_idem c

/-- Reading back a header just set, under any capitalization of the name. -/
lemma getHeaderIn_setHeaderIn (h : HttpResponseHeaders) (f₁ f₂ v : String)
    (hf : lowerStr f₁ = lowerStr f₂) :
    getHeaderIn (setHeaderIn h f₁ v) f₂ = some v := by
  unfold getHeaderIn setHeaderIn
  rw [List.find?_append]
  have h1 : List.find? (fun p => lowerStr p.1 == lowerStr f₂)
      (List.filter (fun p => !(lowerStr p.1 == lowerStr f₁)) h) = none := by
    rw [List.find?_eq_none]
    intro x hx
    have hkeep := List.of_mem_filter hx
    simp only [Bool.not_eq_true', beq_eq_false_iff_ne, ne_eq] at hkeep
    simp only [beq_iff_eq]
    rw [← hf]
    exact hkeep
  rw [h1]
  simp [List.find?, lowerStr_idem, hf]

/-- The empty fluent response builder. -/
def emptyResponseFull : HttpResponseFull := {}

/-- C5: on the fluent response, `header`/`set` are synonyms of `setHeader`,
`get` is a synonym of `getHeader`, and reads and writes are case-insensitive
and mutually consistent: after `set(f₁, v)`, `get(f₂)` returns `v` whenever
the two names agree up to letter case. -/
theorem c5_header_accessors_case_insensitive :
    (∀ (r : HttpResponseFull) (f v : String), r.header f v = r.setHeader f v) ∧
    (∀ (r : HttpResponseFull) (f v : String), r.set f v = r.setHeader f v) ∧
    (∀ (r : HttpResponseFull) (f : String), r.get f = r.getHeader f) ∧
    (∀ (r : HttpResponseFull) (f₁ f₂ v : String), lowerStr f₁ = lowerStr f₂ →
      (r.set f₁ v).get f₂ = some v) :=
  ⟨fun _ _ _ => rfl, fun _ _ _ => rfl, fun _ _ => rfl,
    fun r f₁ f₂ v hf => getHeaderIn_setHeaderIn (r.headers.getD []) f₁ f₂ v hf⟩

/-- Witness for C5: `set('Content-Type', 'x')` then `get('content-type')`
returns `'x'`. -/
theorem c5_header_accessors_case_insensitive_witness :
    lowerStr "Content-Type" = lowerStr "content-type" ∧
    (emptyResponseFull.set "Content-Type" "x").get "content-type" = some "x" :=
  ⟨by decide, c5_header_accessors_case_insensitive.2.2.2 emptyResponseFull
    "Content-Type" "content-type" "x" (by decide)⟩

/-- C6: fluent mutators return the updated builder so chains compose: for any
builder, `status(c).setHeader(n, v).type(t)` normalizes to status `c`; and the
concrete chain `status(201).setHeader('x-a','1').type('text/plain')` yields a
canonical response with status 201, header `x-a: 1` and header
`content-type: text/plain`. -/
theorem c6_fluent_builder_chains_compose :
    (∀ (r : HttpResponseFull) (c : StatusVal) (n v t : String),
      (normalizeFull (((r.status c).setHeader n v).type t)).status = statusValToNat c) ∧
    (normalizeFull (((emptyResponseFull.status (.num 201)).setHeader "x-a" "1").type
      "text/plain")).status = 201 ∧
    getHeaderIn (normalizeFull (((emptyResponseFull.status (.num 201)).setHeader "x-a"
      "1").type "text/plain")).headers "x-a" = some "1" ∧
    getHeaderIn (normalizeFull (((emptyResponseFull.status (.num 201)).setHeader "x-a"
      "1").type "text/plain")).headers HeaderName.contentType = some "text/plain" := by
  refine ⟨fun r c n v t => ?_, by decide, by decide, by decide⟩
  simp [normalizeFull, normalizeParts, HttpResponseFull.status, HttpResponseFull.setHeader,
    HttpResponseFull.type]

/-- C3: the simple shape's resolved status is `statusCode` when present (also
when `status` is present), `status` when only it is present, and 200 when
neither is present. -/
theorem c3_simple_status_precedence :
    (∀ (r : HttpResponseSimple) (v : StatusVal), r.statusCode = some v →
      (normalizeSimple r).status = statusValToNat v) ∧
    (∀ (r : HttpResponseSimple) (v : StatusVal), r.statusCode = none → r.status = some v →
      (normalizeSimple r).status = statusValToNat v) ∧
    (∀ (r : HttpResponseSimple), r.statusCode = none → r.status = none →
      (normalizeSimple r).status = 200) := by
  refine ⟨fun r v h => ?_, fun r v h1 h2 => ?_, fun r h1 h2 => ?_⟩ <;>
    simp [normalizeSimple, normalizeParts, *]

/-- Witness for C3 at concrete responses: `statusCode = 404` beats
`status = 500`; `status = 201` alone resolves to 201; neither resolves to 200. -/
theorem c3_simple_status_precedence_witness :
    ({ statusCode := some (.num 404), status := some (.num 500) } :
      HttpResponseSimple).statusCode = some (.num 404) ∧
    (normalizeSimple { statusCode := some (.num 404), status := some (.num 500) }).status =
      404 ∧
    (normalizeSimple { status := some (.num 201) }).status = 201 ∧
    (normalizeSimple {}).status = 200 :=
  ⟨rfl, c3_simple_status_precedence.1 _ (.num 404) rfl,
    c3_simple_status_precedence.2.1 _ (.num 201) rfl rfl,
    c3_simple_status_precedence.2.2 _ rfl rfl⟩

/-- C4: with negotiation enabled and a structured (non-byte-like, non-string)
body, the resolved body is the JSON serialization of the value and the
resolved content-type is `application/json` when the caller set none; a
content-type the caller set is never overwritten; and an absent
`enableContentNegotiation` defaults to false, passing the body through raw
with no content-type inference. -/
theorem c4_negotiation_serializes_structured_bodies :
    (∀ (r : HttpResponseSimple) (v : JsValue),
      r.enableContentNegotiation = some true → r.body = some v → isStructured v = true →
      getHeaderIn (r.headers.getD []) HeaderName.contentType = none →
      ((normalizeSimple r).body = some (.str (jsonSerialize v)) ∧
        getHeaderIn (normalizeSimple r).headers HeaderName.contentType =
          some MediaType.json)) ∧
    (∀ (r : HttpResponseSimple) (ct : String),
      getHeaderIn (r.headers.getD []) HeaderName.contentType = some ct →
      getHeaderIn (normalizeSimple r).headers HeaderName.contentType = some ct) ∧
    (∀ (r : HttpResponseSimple), r.enableContentNegotiation = none →
      ((normalizeSimple r).body = r.body ∧
        (normalizeSimple r).headers = r.headers.getD [] ∧
        (normalizeSimple r).negotiated = false)) := by
  refine ⟨fun r v he hb hs hct => ?_, fun r ct hct => ?_, fun r he => ?_⟩
  · have key : negotiate true (r.headers.getD []) (some v) =
        (some (.str (jsonSerialize v)),
          defaultContentType (r.headers.getD []) MediaType.json) := by
      cases v <;> simp_all [negotiate, isStructured]
    have hmain : getHeaderIn (defaultContentType (r.headers.getD []) MediaType.json)
        HeaderName.contentType = some MediaType.json := by
      unfold defaultContentType
      rw [hct, if_neg (by simp)]
      exact getHeaderIn_setHeaderIn _ _ _ _ rfl
    constructor
    · simp [normalizeSimple, normalizeParts, he, hb, key]
    · simp [normalizeSimple, normalizeParts, he, hb, key, hmain]
  · cases hev : r.enableContentNegotiation.getD false
    · simp [normalizeSimple, normalizeParts, negotiate, hev, hct]
    · cases hbd : r.body with
      | none => simp [normalizeSimple, normalizeParts, negotiate, hev, hbd, hct]
      | some v =>
        cases v <;>
          simp [normalizeSimple, normalizeParts, negotiate, hev, hbd, hct,
            defaultContentType]
  · simp [normalizeSimple, normalizeParts, negotiate, he]

/-- A simple-shape response with a structured body and negotiation enabled. -/
def jsonBodyResponse : HttpResponseSimple :=
  { body := some (.obj (.cons "x" (.num 1) .nil)), enableContentNegotiation := some true }

/-- A simple-shape response with an explicit content-type and negotiation
enabled. -/
def csvHeaderResponse : HttpResponseSimple :=
  { headers := some [("content-type", "text/csv")], body := some (.num 5),
    enableContentNegotiation := some true }

/-- A simple-shape response with a string body and the negotiation flag
absent. -/
def rawStringResponse : HttpResponseSimple := { body := some (.str "hi") }

/-- Witness for C4: `{ body: {x:1}, enableContentNegotiation: true }` resolves
to the JSON serialization with content-type `application/json`; an explicit
`text/csv` content-type survives negotiation; and with the flag absent a
string body passes through raw. -/
theorem c4_negotiation_serializes_structured_bodies_witness :
    (normalizeSimple jsonBodyResponse).body =
      some (.str (jsonSerialize (.obj (.cons "x" (.num 1) .nil)))) ∧
    getHeaderIn (normalizeSimple jsonBodyResponse).headers HeaderName.contentType =
      some MediaType.json ∧
    getHeaderIn (normalizeSimple csvHeaderResponse).headers HeaderName.contentType =
      some "text/csv" ∧
    (normalizeSimple rawStringResponse).body = some (.str "hi") :=
  ⟨(c4_negotiation_serializes_structured_bodies.1 jsonBodyResponse _ rfl rfl (by decide)
      rfl).1,
    (c4_negotiation_serializes_structured_bodies.1 jsonBodyResponse _ rfl rfl (by decide)
      rfl).2,
    c4_negotiation_serializes_structured_bodies.2.1 csvHeaderResponse "text/csv"
      (by decide),
    (c4_negotiation_serializes_structured_bodies.2.2 rawStringResponse rfl).1⟩

/-- C7: on a fresh request with a body, `formData()` dispatches on the
declared content type — multipart media types are parsed into named fields,
the URL-encoded media type is parsed into name/value pairs, and the call
fails with `UnsupportedBodyTypeError` exactly when the content type is
neither. -/
theorem c7_formData_dispatches_on_content_type :
    (∀ (r : HttpRequest) (data : String), r.bodyUsed = false → r.body = some data →
      isMultipartType ((r.contentType).getD "") = true →
      (runAccessor .formData r).1 =
        .ok (.formData (parseMultipart ((r.contentType).getD "") data))) ∧
    (∀ (r : HttpRequest) (data : String), r.bodyUsed = false → r.body = some data →
      isMultipartType ((r.contentType).getD "") = false →
      isUrlEncodedType ((r.contentType).getD "") = true →
      (runAccessor .formData r).1 = .ok (.formData (parseUrlEncoded data))) ∧
    (∀ (r : HttpRequest) (data : String), r.bodyUsed = false → r.body = some data →
      ((runAccessor .formData r).1 =
          .error (.unsupportedBodyType ((r.contentType).getD "")) ↔
        (isMultipartType ((r.contentType).getD "") = false ∧
          isUrlEncodedType ((r.contentType).getD "") = false))) := by
  refine ⟨fun r data hfresh hb hm => ?_, fun r data hfresh hb hm hu => ?_,
    fun r data hfresh hb => ?_⟩
  · rw [runAccessor_fresh _ _ hfresh]
    simp [accessorResult, hb, hm]
  · rw [runAccessor_fresh _ _ hfresh]
    simp [accessorResult, hb, hm, hu]
  · rw [runAccessor_fresh _ _ hfresh]
    by_cases hm : isMultipartType ((r.contentType).getD "") = true
    · simp [accessorResult, hb, hm]
    · by_cases hu : isUrlEncodedType ((r.contentType).getD "") = true
      · simp [accessorResult, hb, hm, hu]
      · simp [accessorResult, hb, hm, hu]

/-- A sample fresh request carrying a URL-encoded form body. -/
def sampleUrlEncodedRequest : HttpRequest :=
  mkRequest .POST "http://localhost/api/fn"
    [("content-type", "application/x-www-form-urlencoded")] [] [] none (some "a=1&b=2")

/-- A sample fresh request carrying a multipart form body. -/
def sampleMultipartRequest : HttpRequest :=
  mkRequest .POST "http://localhost/api/fn"
    [("Content-Type", "multipart/form-data; boundary=xyz")] [] [] none
    (some "--xyz\r\ncontent-disposition: form-data; name=\"f\"\r\n\r\nhello\r\n--xyz--")

/-- A sample fresh request whose body is declared `text/plain`. -/
def samplePlainRequest : HttpRequest :=
  mkRequest .POST "http://localhost/api/fn" [("content-type", "text/plain")] [] [] none
    (some "a=1")

/-- Witness for C7 at concrete requests: the URL-encoded body parses to its
pairs, the multipart body parses to its named field, and a `text/plain` body
makes `formData()` fail with `UnsupportedBodyTypeError`. -/
theorem c7_formData_dispatches_on_content_type_witness :
    (runAccessor .formData sampleUrlEncodedRequest).1 =
      .ok (.formData [("a", "1"), ("b", "2")]) ∧
    (runAccessor .formData sampleMultipartRequest).1 =
      .ok (.formData [("f", "hello\r\n")]) ∧
    (runAccessor .formData samplePlainRequest).1 =
      .error (.unsupportedBodyType "text/plain") :=
  ⟨(c7_formData_dispatches_on_content_type.2.1 sampleUrlEncodedRequest "a=1&b=2"
      (by decide) (by decide) (by decide) (by decide)).trans (by decide),
    (c7_formData_dispatches_on_content_type.1 sampleMultipartRequest
      "--xyz\r\ncontent-disposition: form-data; name=\"f\"\r\n\r\nhello\r\n--xyz--"
      (by decide) (by decide) (by decide)).trans (by decide),
    ((c7_formData_dispatches_on_content_type.2.2 samplePlainRequest "a=1"
      (by decide) (by decide)).mpr ⟨by decide, by decide⟩).trans (by decide)⟩

/-- A cookie carrying both the absolute expiration and the max-age form,
well-typed against the source `Cookie` interface. -/
def bothCookie : Cookie :=
  { name := "a", value := "b", expires := some 0, maxAge := some 60 }

/-- Counterexample to C8 as stated: a cookie carrying both `expires` and
`maxAge` is well-formed — it satisfies the source `Cookie` interface (which
declares the two fields independently optional) and serializes successfully —
so the absolute expiration attribute is not exclusive with the max-age form. -/
theorem c8_counterexample_expires_maxAge_not_exclusive :
    bothCookie.expires.isSome = true ∧ bothCookie.maxAge.isSome = true ∧
    (serializeCookie bothCookie.toRaw).isOk = true := by decide

/-- C8 (amended): every cookie carries a required name and value — serializing
a cookie missing either fails with `InvalidCookieError`, and only then, before
any output is produced — while `expires` and `maxAge` are independently
optional: every cookie well-typed against the source interface serializes,
including one carrying both. -/
theorem c8_cookie_name_value_required :
    (∀ (c : RawCookie),
      (serializeCookie c = .error .invalidCookie ↔ (c.name = none ∨ c.value = none))) ∧
    (∀ (c : Cookie), (serializeCookie c.toRaw).isOk = true) := by
  constructor
  · intro c
    rcases hn : c.name with _ | n <;> rcases hv : c.value with _ | v <;>
      simp [serializeCookie, hn, hv]
  · intro c
    simp [serializeCookie, Cookie.toRaw]

/-- The decimal accumulator distributes over list append. -/
lemma parseDecAux_append (a : Nat) (xs ys : List Char) :
    parseDecAux a (xs ++ ys) =
      match parseDecAux a xs with
      | some b => parseDecAux b ys
      | none => none := by
  induction xs generalizing a with
  | nil => simp [parseDecAux]
  | cons c cs ih =>
    by_cases hc : c.isDigit
    · simp [parseDecAux, hc, ih]
    · simp [parseDecAux, hc]

/-- The character of a digit below ten is a digit character. -/
lemma digitChar_isDigit {d : Nat} (hd : d < 10) : (Nat.digitChar d).isDigit = true := by
  interval_cases d <;> decide

/-- The numeric value of a digit character below ten. -/
lemma digitChar_val {d : Nat} (hd : d < 10) : (Nat.digitChar d).toNat - 48 = d := by
  interval_cases d <;> decide

/-- Running the decimal accumulator over a digit list printed most significant
digit first recovers the positional value of the digits. -/
lemma parseDecAux_digits (l : List Nat) (hl : ∀ d ∈ l, d < 10) (a : Nat) :
    parseDecAux a ((l.map Nat.digitChar).reverse) =
      some (a * 10 ^ l.length + Nat.ofDigits 10 l) := by
  induction l generalizing a with
  | nil => simp [parseDecAux, Nat.ofDigits]
  | cons d t ih =>
    have hd : d < 10 := hl d (List.mem_cons_self d t)
    have ht : ∀ x ∈ t, x < 10 := fun x hx => hl x (List.mem_cons_of_mem d hx)
    rw [List.map_cons, List.reverse_cons, parseDecAux_append, ih ht a]
    simp only [parseDecAux, digitChar_isDigit hd, if_true, digitChar_val hd]
    simp only [Nat.ofDigits_cons, List.length_cons]
    congr 1
    ring

/-- Parsing the decimal string form of a natural number recovers it. -/
lemma parseDecimal_decimalString (n : Nat) : parseDecimal (decimalString n) = some n := by
  by_cases h : n = 0
  · subst h; decide
  · unfold decimalString parseDecimal
    rw [if_neg h]
    have hne : Nat.digits 10 n ≠ [] := Nat.digits_ne_nil_iff_ne_zero.mpr h
    have hdata : (String.mk (((Nat.digits 10 n).map Nat.digitChar).reverse)).data =
        ((Nat.digits 10 n).map Nat.digitChar).reverse := rfl
    rw [hdata, if_neg (by simp [hne])]
    rw [parseDecAux_digits _ (fun d hd => Nat.digits_lt_base (by norm_num) hd) 0]
    simp [Nat.ofDigits_digits]

/-- C10: both authoring shapes accept the status as a number or a string
(`StatusVal` mirrors `number | string` from the source), and normalization
resolves the numeric form and its decimal string form to the same canonical
integer status — through `statusCode`, through `status`, and through the
fluent builder's `status(code)` mutator. -/
theorem c10_status_number_and_string_forms_agree :
    ∀ (n : Nat),
      statusValToNat (.num n) = n ∧
      statusValToNat (.str (decimalString n)) = n ∧
      (normalizeSimple { statusCode := some (.str (decimalString n)) }).status =
        (normalizeSimple { statusCode := some (.num n) }).status ∧
      (normalizeSimple { status := some (.str (decimalString n)) }).status = n ∧
      (normalizeFull (emptyResponseFull.status (.str (decimalString n)))).status = n := by
  intro n
  have hs : statusValToNat (.str (decimalString n)) = n := by
    simp [statusValToNat, parseDecimal_decimalString]
  refine ⟨rfl, hs, ?_, ?_, ?_⟩ <;>
    simp [normalizeSimple, normalizeFull, normalizeParts, HttpResponseFull.status,
      emptyResponseFull, hs, statusValToNat, parseDecimal_decimalString]

end AzFuncHttp
